import Mathlib

/-!
Verification of the ET news Telegram bot pipeline (news_telegram_bot.py,
text_utils.py) against its natural-language specification.

Python strings are modelled as `List Char`.  External library calls
(hashlib.md5, email.utils.parsedate_to_datetime, the sumy LSA summarizer,
html.unescape) are modelled abstractly, as documented at each definition;
everything else is translated directly from the source.
-/

set_option maxRecDepth 4000

/-- Python strings are modelled as lists of characters. -/
abbrev Str := List Char

/-- ASCII fragment of Python's regex class `\s` (whitespace). -/
def isPySpace (c : Char) : Bool :=
  c = ' ' || c = '\t' || c = '\n' || c = '\r' || c = '\x0b' || c = '\x0c'

/-- ASCII fragment of Python's regex class `\w` (word character). -/
def isWordChar (c : Char) : Bool :=
  c.isAlphanum || c = '_'

/-- Fuelled worker for `replaceAll` (Python `str.replace`): replaces every
non-overlapping occurrence of `needle`, scanning left to right. -/
def replaceAllF (needle repl : Str) : Nat → Str → Str
  | 0, l => l
  | _ + 1, [] => []
  | fuel + 1, c :: cs =>
    if needle ≠ [] ∧ needle.isPrefixOf (c :: cs) then
      repl ++ replaceAllF needle repl fuel ((c :: cs).drop needle.length)
    else
      c :: replaceAllF needle repl fuel cs

/-- Python `text.replace(needle, repl)` for a nonempty needle.  The fuel
`l.length` suffices: every step consumes at least one input character. -/
def replaceAll (needle repl l : Str) : Str :=
  replaceAllF needle repl l.length l

/-- Python `re.sub(r'\s+', ' ', text)`: collapse every whitespace run to a
single space. -/
def collapseWs : Str → Str
  | [] => []
  | c :: cs =>
    if isPySpace c then
      match cs with
      | [] => [' ']
      | d :: _ => if isPySpace d then collapseWs cs else ' ' :: collapseWs cs
    else
      c :: collapseWs cs

/-- Python `str.strip()`: drop whitespace from both ends. -/
def stripEnds (l : Str) : Str :=
  (((l.dropWhile isPySpace).reverse.dropWhile isPySpace)).reverse

/-- Python `needle in hay` (substring test). -/
def substrB (needle : Str) : Str → Bool
  | [] => needle.isPrefixOf []
  | c :: cs => needle.isPrefixOf (c :: cs) || substrB needle cs

/-- Numeric value of a digit run (Python `int` on a digit string). -/
def digitsVal (l : Str) : Nat :=
  l.foldl (fun n c => n * 10 + (c.toNat - '0'.toNat)) 0

/-- `int(re.findall(r'\d+', s)[0])` when a digit run exists: the value of the
first maximal digit run in `s`. -/
def firstNumber : Str → Option Nat
  | [] => none
  | c :: cs =>
    if c.isDigit then some (digitsVal ((c :: cs).takeWhile Char.isDigit))
    else firstNumber cs

/-- Helper for the regex `<[^<]+?>`: after the opening bracket and one
consumed non-bracket character, scan for the first closing bracket, failing
if another opening bracket appears first. -/
def scanClose : Str → Option Str
  | [] => none
  | c :: cs => if c = '>' then some cs else if c = '<' then none else scanClose cs

/-- Given the characters following an opening bracket, return the remainder
after a full (non-greedy) match of `[^<]+?>`, if any. -/
def tagEnd : Str → Option Str
  | [] => none
  | a :: rest => if a = '<' then none else scanClose rest

/-- Fuelled worker for `re.sub('<[^<]+?>', '', text)`. -/
def stripTagsF : Nat → Str → Str
  | 0, l => l
  | _ + 1, [] => []
  | fuel + 1, c :: cs =>
    if c = '<' then
      match tagEnd cs with
      | some rest => stripTagsF fuel rest
      | none => c :: stripTagsF fuel cs
    else
      c :: stripTagsF fuel cs

/-- Python `re.sub('<[^<]+?>', '', text)`.  The fuel `l.length` suffices:
every step consumes at least one input character. -/
def stripTags (l : Str) : Str :=
  stripTagsF l.length l

/-- Python `str.rfind(c)` returning the index of the last occurrence. -/
def rfindIdx (c : Char) (l : Str) : Option Nat :=
  (l.reverse.findIdx? (fun x => x = c)).map (fun j => l.length - 1 - j)

/-- Python `excerpt.rsplit(' ', 1)[0]`: everything before the last space,
or the whole string when it has no space. -/
def rsplitHead (l : Str) : Str :=
  match rfindIdx ' ' l with
  | some j => l.take j
  | none => l

/-- hashlib.md5 hex digest of the guid.  The MD5 library is external to the
repository; the digest is modelled as an injective encoding of its input
(hash collisions are outside the model). -/
def md5_hex (s : Str) : Str :=
  'm' :: 'd' :: '5' :: ':' :: s

/-- html.unescape is an external library; it is modelled on the five
standard XML entities, unescaped before the ampersand itself. -/
def html_unescape (l : Str) : Str :=
  replaceAll "&amp;".toList "&".toList
    (replaceAll "&#39;".toList "'".toList
      (replaceAll "&quot;".toList "\"".toList
        (replaceAll "&gt;".toList ">".toList
          (replaceAll "&lt;".toList "<".toList l))))

/-- `normalize_currency_symbols` from news_telegram_bot.py (the function the
pipeline actually calls).  The non-ASCII dictionary keys are reproduced
byte-for-byte from the source file: they are mojibake (for example
`"‚Çπ"` where the rupee sign `"₹"` was evidently
intended). -/
def normalize_currency_symbols (text : Str) : Str :=
  let t := replaceAll "‚Çπ".toList "INR ".toList text
  let t := replaceAll "‚Ç®".toList "INR ".toList t
  let t := replaceAll "$".toList "USD ".toList t
  let t := replaceAll "‚Ç¨".toList "EUR ".toList t
  let t := replaceAll "¬£".toList "GBP ".toList t
  let t := replaceAll "¬•".toList "JPY ".toList t
  let t := replaceAll "‚Ç©".toList "KRW ".toList t
  let t := replaceAll "‚ÇΩ".toList "RUB ".toList t
  collapseWs t

/-- `\s+` after an optional dot: helper for the regex
`\b(rs|Rs|RS)\.?\s+` of text_utils.py. -/
def spacePlus : Str → Option Str
  | [] => none
  | c :: cs => if isPySpace c then some (cs.dropWhile isPySpace) else none

/-- Match `(rs|Rs|RS)\.?\s+` at the head of the list, returning the
remainder after the match. -/
def matchRs : Str → Option Str
  | a :: b :: rest =>
    if (a = 'r' ∧ b = 's') ∨ (a = 'R' ∧ b = 's') ∨ (a = 'R' ∧ b = 'S') then
      match rest with
      | '.' :: rest2 => spacePlus rest2
      | _ => spacePlus rest
    else none
  | _ => none

/-- Fuelled worker for `re.sub(r'\b(rs|Rs|RS)\.?\s+', 'INR ', text)`.
`prevWord` records whether the previous character was a word character
(the `\b` anchor holds exactly when it was not, since r and R are word
characters). -/
def rsSubF : Nat → Bool → Str → Str
  | 0, _, l => l
  | _ + 1, _, [] => []
  | fuel + 1, prevWord, c :: cs =>
    if prevWord = false then
      match matchRs (c :: cs) with
      | some rest => "INR ".toList ++ rsSubF fuel false rest
      | none => c :: rsSubF fuel (isWordChar c) cs
    else c :: rsSubF fuel (isWordChar c) cs

/-- `re.sub(r'\b(rs|Rs|RS)\.?\s+', 'INR ', text)` from text_utils.py. -/
def rsSub (l : Str) : Str :=
  rsSubF l.length false l

/-- `normalize_currency_symbols` from text_utils.py, with the genuine
currency-symbol keys and the word-boundary rs rule.  Not imported by the
pipeline; modelled for comparison with the pipeline's own version. -/
def tu_normalize_currency_symbols (text : Str) : Str :=
  let t := replaceAll "₹".toList "INR ".toList text
  let t := replaceAll "₨".toList "INR ".toList t
  let t := replaceAll "$".toList "USD ".toList t
  let t := replaceAll "€".toList "EUR ".toList t
  let t := replaceAll "£".toList "GBP ".toList t
  let t := replaceAll "¥".toList "JPY ".toList t
  let t := replaceAll "₩".toList "KRW ".toList t
  let t := replaceAll "₽".toList "RUB ".toList t
  collapseWs (rsSub t)

/-- The cleanup step of `summarize_text`: strip HTML tags, collapse
whitespace, strip the ends. -/
def clean_text (l : Str) : Str :=
  stripEnds (collapseWs (stripTags l))

/-- The smart-truncation fallback of `summarize_text`: cut the first
`maxChars` characters at the last sentence end if it lies past index 50,
else at the last space, appending an ellipsis. -/
def summarize_fallback (t : Str) (maxChars : Nat) : Str :=
  if maxChars < t.length then
    let excerpt := t.take maxChars
    match rfindIdx '.' excerpt with
    | some d => if 50 < d then excerpt.take (d + 1) else rsplitHead excerpt ++ "...".toList
    | none => rsplitHead excerpt ++ "...".toList
  else t

/-- `summarize_text` from news_telegram_bot.py.  The sumy LSA summarizer is
an external library, modelled as the oracle `lsa` acting on the cleaned
text; `none` models a raised exception.  An LSA result is kept when it is
nonempty and its length is at most `1.5 * maxChars` (the comparison
`2 * len ≤ 3 * maxChars` is the exact integer form of the source's
float comparison); otherwise the fallback truncation runs. -/
def summarize_text (lsa : Str → Option Str) (text : Str) (maxChars : Nat) : Str :=
  let t := clean_text text
  if t.length ≤ maxChars then t
  else
    match lsa t with
    | some s =>
      if s ≠ [] ∧ 2 * s.length ≤ 3 * maxChars then s else summarize_fallback t maxChars
    | none => summarize_fallback t maxChars

/-- A row of the `sent_articles` table (timestamps are outside the model). -/
structure SentRecord where
  article_hash : Str
  guid : Str
  title : Str
  link : Str
  telegram_message_id : Str
  feed_source : Str
deriving DecidableEq

/-- A row of the `failed_sends` table (timestamps are outside the model). -/
structure FailedRecord where
  article_hash : Str
  error_message : Str
  retry_count : Nat
  resolved : Bool
deriving DecidableEq

/-- The SQLite database: the two tables, rows in insertion order.
`article_hash` carries a UNIQUE constraint in `sent_articles` and a unique
index in `failed_sends`. -/
structure DB where
  sent_articles : List SentRecord
  failed_sends : List FailedRecord
deriving DecidableEq

/-- `DatabaseManager.is_article_sent`. -/
def is_article_sent (db : DB) (h : Str) : Bool :=
  db.sent_articles.any (fun r => r.article_hash = h)

/-- `DatabaseManager.is_title_sent`. -/
def is_title_sent (db : DB) (t : Str) : Bool :=
  db.sent_articles.any (fun r => r.title = t)

/-- The `NewsArticle` dataclass.  `pubDatetime` models the dynamically
attached `_pub_datetime` attribute: `none` when the attribute was never
set. -/
structure PyDateTime where
  day : Int
  secondOfDay : Nat
deriving DecidableEq

structure NewsArticle where
  title : Str
  description : Str
  link : Str
  pub_date : Str
  image_url : Option Str
  guid : Str
  pubDatetime : Option PyDateTime
deriving DecidableEq

/-- `NewsArticle.get_hash`. -/
def NewsArticle.get_hash (a : NewsArticle) : Str :=
  md5_hex a.guid

/-- `DatabaseManager.mark_article_sent`: INSERT into `sent_articles`; a
duplicate `article_hash` raises IntegrityError, which the code swallows, so
the model leaves the table unchanged in that case. -/
def mark_article_sent (db : DB) (a : NewsArticle) (message_id feed_source : Str) : DB :=
  if db.sent_articles.any (fun r => r.article_hash = a.get_hash) then db
  else
    { db with
      sent_articles := db.sent_articles ++
        [⟨a.get_hash, a.guid, a.title, a.link, message_id, feed_source⟩] }

/-- `DatabaseManager.log_failed_send`: INSERT with retry_count 1, ON
CONFLICT(article_hash) increment retry_count and overwrite the error
message. -/
def log_failed_send (db : DB) (h e : Str) : DB :=
  if db.failed_sends.any (fun r => r.article_hash = h) then
    { db with
      failed_sends := db.failed_sends.map (fun r =>
        if r.article_hash = h then
          { r with retry_count := r.retry_count + 1, error_message := e }
        else r) }
  else
    { db with failed_sends := db.failed_sends ++ [⟨h, e, 1, false⟩] }

/-- One feed entry as seen through feedparser's dictionary interface:
`none` models an absent key. -/
structure FeedEntry where
  title : Option Str
  description : Option Str
  link : Option Str
  published : Option Str
  guid : Option Str
  enclosures : List (Option Str)
  enclosure : Option (Option Str)
deriving DecidableEq

/-- The `NewsArticle` value `parse_feed` builds for a surviving entry, given
the current value of the loop-local `pub_dt` variable (`none` when `pub_dt`
was never assigned in this call, so that the `_pub_datetime` attribute is
not attached). -/
def buildArticle (lsa : Str → Option Str) (e : FeedEntry) (pubDt : Option PyDateTime) :
    NewsArticle :=
  let article_guid := e.guid.getD (e.link.getD [])
  let title := normalize_currency_symbols (html_unescape (e.title.getD "No Title".toList))
  let image_url : Option Str :=
    match e.enclosures with
    | u :: _ => u
    | [] =>
      match e.enclosure with
      | some u => u
      | none => none
  let description : Str :=
    match e.description.getD [] with
    | [] => []
    | d => summarize_text lsa (normalize_currency_symbols (html_unescape d)) 350
  { title := title
    description := description
    link := e.link.getD []
    pub_date := e.published.getD []
    image_url := image_url
    guid := article_guid
    pubDatetime := pubDt }

/-- The deduplication-and-append tail of the `parse_feed` loop body, run
once an entry has passed the date filter; `pd` is the current value of
`pub_dt`. -/
def parseFeedKeep (lsa : Str → Option Str) (db : DB)
    (articles : List NewsArticle) (pd : Option PyDateTime) (e : FeedEntry) :
    List NewsArticle × Option PyDateTime :=
  let a := buildArticle lsa e pd
  if is_article_sent db a.get_hash then (articles, pd)
  else if is_title_sent db a.title then (articles, pd)
  else (articles ++ [a], pd)

/-- One iteration of the `parse_feed` entry loop.  The state is the article
list built so far together with the current value of the loop-local
`pub_dt` variable (which Python keeps across iterations).  `parseDate`
models `email.utils.parsedate_to_datetime`; `none` models a raised
exception, which the bare `except` turns into `continue` — note that when
the date parses but is not today's, `pub_dt` has already been assigned
before the `continue`. -/
def parseFeedStep (lsa : Str → Option Str) (parseDate : Str → Option PyDateTime)
    (today : Int) (db : DB)
    (st : List NewsArticle × Option PyDateTime) (e : FeedEntry) :
    List NewsArticle × Option PyDateTime :=
  match e.published.getD [] with
  | [] => parseFeedKeep lsa db st.1 st.2 e
  | s =>
    match parseDate s with
    | none => (st.1, st.2)
    | some dt =>
      if dt.day ≠ today then (st.1, some dt)
      else parseFeedKeep lsa db st.1 (some dt) e

/-- `AsyncNewsMonitor.parse_feed`, from the parsed entry list on: the
article list returned for one call.  The database is read-only during the
call. -/
def parse_feed (lsa : Str → Option Str) (parseDate : Str → Option PyDateTime)
    (today : Int) (db : DB) (entries : List FeedEntry) : List NewsArticle :=
  (entries.foldl (parseFeedStep lsa parseDate today db) ([], none)).1

/-- Result of the delivery attempt for one dequeued item, as the worker's
exception handlers classify it: success, a `TelegramError` with a message,
or any other raised exception with a message. -/
inductive SendOutcome where
  | success
  | telegramError (msg : Str)
  | otherError (msg : Str)
deriving DecidableEq

/-- The worker-visible mutable state: the database, the in-flight hash set
(`processing_hashes`), the task queue as seen after the current item was
dequeued, the number of `task_done` acknowledgements, and the sequence of
`asyncio.sleep` durations issued (in seconds). -/
structure WorkerState where
  db : DB
  processing_hashes : List Str
  task_queue : List (NewsArticle × Str)
  acks : Nat
  sleeps : List Nat
deriving DecidableEq

/-- The flood-control test of the worker's `TelegramError` handler. -/
def isFloodMsg (msg : Str) : Bool :=
  substrB "Flood control exceeded".toList msg || substrB "Retry in".toList msg

/-- The wait the flood handler computes: one plus the first integer found
in the error message, defaulting to 30 when the message has no digits. -/
def floodWait (msg : Str) : Nat :=
  match firstNumber msg with
  | some n => n + 1
  | none => 30

/-- The try-body and exception handlers of `worker_process_queue` for one
dequeued `(article, feed_name)` item: on success the article is marked
sent and the fixed 4-second pacing sleep runs; on a flood-classified
`TelegramError` the computed wait is slept and the article is merely
dropped; on any other `TelegramError` the error is only logged; on any
other exception a failure row is upserted.  No branch touches the queue. -/
def handleOutcome (st : WorkerState) (a : NewsArticle) (feed_name : Str) :
    SendOutcome → WorkerState
  | .success =>
    { st with
      db := mark_article_sent st.db a "async_sent".toList feed_name
      sleeps := st.sleeps ++ [4] }
  | .telegramError msg =>
    if isFloodMsg msg then { st with sleeps := st.sleeps ++ [floodWait msg] }
    else st
  | .otherError msg =>
    { st with db := log_failed_send st.db a.get_hash msg }

/-- The `finally` block of the worker loop: discard the article's hash from
`processing_hashes` (guarded by a membership test in the source) and call
`task_done`. -/
def finallyRelease (st : WorkerState) (a : NewsArticle) : WorkerState :=
  { st with
    processing_hashes := st.processing_hashes.filter (fun h => ¬(h = a.get_hash))
    acks := st.acks + 1 }

/-- Processing of one dequeued item by `worker_process_queue`: the handler
for the outcome, then the unconditional `finally` block. -/
def worker_process_item (st : WorkerState) (a : NewsArticle) (feed_name : Str)
    (out : SendOutcome) : WorkerState :=
  finallyRelease (handleOutcome st a feed_name out) a

theorem scanClose_length {l r : Str} (h : scanClose l = some r) : r.length ≤ l.length := by
  induction l with
  | nil => simp [scanClose] at h
  | cons c cs ih =>
    unfold scanClose at h
    split at h
    · cases h
      exact Nat.le_succ _
    · split at h
      · exact absurd h (by simp)
      · exact (ih h).trans (Nat.le_succ _)

theorem tagEnd_length {l r : Str} (h : tagEnd l = some r) : r.length ≤ l.length := by
  cases l with
  | nil => simp [tagEnd] at h
  | cons a rest =>
    by_cases ha : a = '<'
    · simp [tagEnd, ha] at h
    · simp only [tagEnd, ha, if_false, ite_false] at h
      exact (scanClose_length h).trans (Nat.le_succ _)

theorem stripTagsF_length (n : Nat) (l : Str) : (stripTagsF n l).length ≤ l.length := by
  induction n generalizing l with
  | zero => simp [stripTagsF]
  | succ m ih =>
    cases l with
    | nil => simp [stripTagsF]
    | cons c cs =>
      unfold stripTagsF
      split
      · split
        · next rest hrest =>
            exact ((ih rest).trans (tagEnd_length hrest)).trans (Nat.le_succ _)
        · simpa using ih cs
      · simpa using ih cs

theorem stripTags_length (l : Str) : (stripTags l).length ≤ l.length :=
  stripTagsF_length l.length l

theorem collapseWs_length (l : Str) : (collapseWs l).length ≤ l.length := by
  induction l with
  | nil => simp [collapseWs]
  | cons c cs ih =>
    cases cs with
    | nil =>
      by_cases h : isPySpace c <;> simp [collapseWs, h]
    | cons d ds =>
      have hunf : collapseWs (c :: d :: ds) =
          if isPySpace c then
            (if isPySpace d then collapseWs (d :: ds) else ' ' :: collapseWs (d :: ds))
          else c :: collapseWs (d :: ds) := rfl
      rw [hunf]
      by_cases hc : isPySpace c
      · by_cases hd : isPySpace d
        · simp only [hc, hd, if_true]
          exact ih.trans (Nat.le_succ _)
        · simp only [hc, hd, if_true, if_false, ite_false]
          simpa using ih
      · simp only [hc, if_false, ite_false]
        simpa using ih

theorem stripEnds_length (l : Str) : (stripEnds l).length ≤ l.length := by
  unfold stripEnds
  calc (((l.dropWhile isPySpace).reverse.dropWhile isPySpace)).reverse.length
      = ((l.dropWhile isPySpace).reverse.dropWhile isPySpace).length :=
        List.length_reverse _
    _ ≤ (l.dropWhile isPySpace).reverse.length :=
        (List.dropWhile_sublist _).length_le
    _ = (l.dropWhile isPySpace).length := List.length_reverse _
    _ ≤ l.length := (List.dropWhile_sublist _).length_le

theorem clean_text_length (l : Str) : (clean_text l).length ≤ l.length :=
  ((stripEnds_length _).trans (collapseWs_length _)).trans (stripTags_length l)

theorem parseFeedKeep_snd (lsa : Str → Option Str) (db : DB)
    (arts : List NewsArticle) (pd : Option PyDateTime) (e : FeedEntry) :
    (parseFeedKeep lsa db arts pd e).2 = pd := by
  simp only [parseFeedKeep]
  split
  · rfl
  · split <;> rfl

theorem parseFeedKeep_mem (lsa : Str → Option Str) (db : DB)
    (arts : List NewsArticle) (pd : Option PyDateTime) (e : FeedEntry) :
    ∀ a ∈ (parseFeedKeep lsa db arts pd e).1,
      a ∈ arts ∨ (is_article_sent db a.get_hash = false ∧ is_title_sent db a.title = false) := by
  intro a ha
  simp only [parseFeedKeep] at ha
  split at ha
  · exact Or.inl ha
  · next h1 =>
    split at ha
    · exact Or.inl ha
    · next h2 =>
      rcases List.mem_append.mp ha with hmem | hmem
      · exact Or.inl hmem
      · right
        rcases List.mem_singleton.mp hmem with rfl
        exact ⟨by simpa using h1, by simpa using h2⟩

theorem parseFeedStep_mem (lsa : Str → Option Str) (pd : Str → Option PyDateTime)
    (today : Int) (db : DB) (st : List NewsArticle × Option PyDateTime) (e : FeedEntry) :
    ∀ a ∈ (parseFeedStep lsa pd today db st e).1,
      a ∈ st.1 ∨ (is_article_sent db a.get_hash = false ∧ is_title_sent db a.title = false) := by
  intro a ha
  unfold parseFeedStep at ha
  split at ha
  · exact parseFeedKeep_mem _ _ _ _ _ a ha
  · split at ha
    · exact Or.inl ha
    · split at ha
      · exact Or.inl ha
      · exact parseFeedKeep_mem _ _ _ _ _ a ha

theorem parse_feed_fold_mem (lsa : Str → Option Str) (pd : Str → Option PyDateTime)
    (today : Int) (db : DB) :
    ∀ (entries : List FeedEntry) (st : List NewsArticle × Option PyDateTime),
      (∀ a ∈ st.1, is_article_sent db a.get_hash = false ∧ is_title_sent db a.title = false) →
      ∀ a ∈ (entries.foldl (parseFeedStep lsa pd today db) st).1,
        is_article_sent db a.get_hash = false ∧ is_title_sent db a.title = false := by
  intro entries
  induction entries with
  | nil => intro st hst a ha; exact hst a ha
  | cons e es ih =>
    intro st hst a ha
    rw [List.foldl_cons] at ha
    refine ih _ ?_ a ha
    intro b hb
    rcases parseFeedStep_mem lsa pd today db st e b hb with hmem | hgood
    · exact hst b hmem
    · exact hgood

theorem parseFeedKeep_app (lsa : Str → Option Str) (db : DB)
    (arts : List NewsArticle) (pd : Option PyDateTime) (e : FeedEntry)
    (h1 : is_article_sent db (buildArticle lsa e pd).get_hash = false)
    (h2 : is_title_sent db (buildArticle lsa e pd).title = false) :
    parseFeedKeep lsa db arts pd e = (arts ++ [buildArticle lsa e pd], pd) := by
  simp only [parseFeedKeep, h1, h2]
  simp

theorem parseFeedStep_drop_badparse (lsa : Str → Option Str)
    (pd : Str → Option PyDateTime) (today : Int) (db : DB)
    (st : List NewsArticle × Option PyDateTime) (e : FeedEntry) (s : Str)
    (hs : e.published = some s) (hne : s ≠ []) (hp : pd s = none) :
    parseFeedStep lsa pd today db st e = (st.1, st.2) := by
  unfold parseFeedStep
  rw [hs]
  cases s with
  | nil => exact absurd rfl hne
  | cons c cs => simp [hp]

theorem parseFeedStep_drop_wrongday (lsa : Str → Option Str)
    (pd : Str → Option PyDateTime) (today : Int) (db : DB)
    (st : List NewsArticle × Option PyDateTime) (e : FeedEntry) (s : Str)
    (dt : PyDateTime) (hs : e.published = some s) (hne : s ≠ [])
    (hp : pd s = some dt) (hd : dt.day ≠ today) :
    parseFeedStep lsa pd today db st e = (st.1, some dt) := by
  unfold parseFeedStep
  rw [hs]
  cases s with
  | nil => exact absurd rfl hne
  | cons c cs => simp [hp, hd]

theorem parseFeedStep_keep_sameday (lsa : Str → Option Str)
    (pd : Str → Option PyDateTime) (today : Int) (db : DB)
    (st : List NewsArticle × Option PyDateTime) (e : FeedEntry) (s : Str)
    (dt : PyDateTime) (hs : e.published = some s) (hne : s ≠ [])
    (hp : pd s = some dt) (hd : dt.day = today) :
    parseFeedStep lsa pd today db st e = parseFeedKeep lsa db st.1 (some dt) e := by
  unfold parseFeedStep
  rw [hs]
  cases s with
  | nil => exact absurd rfl hne
  | cons c cs => simp [hp, hd]

theorem parseFeedStep_keep_emptydate (lsa : Str → Option Str)
    (pd : Str → Option PyDateTime) (today : Int) (db : DB)
    (st : List NewsArticle × Option PyDateTime) (e : FeedEntry)
    (he : e.published = none ∨ e.published = some []) :
    parseFeedStep lsa pd today db st e = parseFeedKeep lsa db st.1 st.2 e := by
  unfold parseFeedStep
  rcases he with he | he <;> rw [he] <;> rfl

/-- An entry on which the loop-local `pub_dt` variable is not (re)assigned:
its `published` value is empty or fails to parse. -/
def noParsedDate (pd : Str → Option PyDateTime) (e : FeedEntry) : Prop :=
  e.published.getD [] = [] ∨ pd (e.published.getD []) = none

theorem parseFeedStep_snd_noparse (lsa : Str → Option Str)
    (pd : Str → Option PyDateTime) (today : Int) (db : DB)
    (st : List NewsArticle × Option PyDateTime) (e : FeedEntry)
    (h : noParsedDate pd e) :
    (parseFeedStep lsa pd today db st e).2 = st.2 := by
  unfold parseFeedStep
  rcases hpub : e.published.getD [] with _ | ⟨c, cs⟩
  · exact parseFeedKeep_snd lsa db st.1 st.2 e
  · rcases h with h | h
    · rw [hpub] at h
      exact absurd h (by simp)
    · rw [hpub] at h
      simp [h]

theorem parseFeedStep_snd_parsed (lsa : Str → Option Str)
    (pd : Str → Option PyDateTime) (today : Int) (db : DB)
    (st : List NewsArticle × Option PyDateTime) (e : FeedEntry) (s : Str)
    (dt : PyDateTime) (hs : e.published = some s) (hne : s ≠ [])
    (hp : pd s = some dt) :
    (parseFeedStep lsa pd today db st e).2 = some dt := by
  by_cases hd : dt.day = today
  · rw [parseFeedStep_keep_sameday lsa pd today db st e s dt hs hne hp hd]
    exact parseFeedKeep_snd lsa db st.1 (some dt) e
  · rw [parseFeedStep_drop_wrongday lsa pd today db st e s dt hs hne hp hd]

theorem foldl_snd_noparse (lsa : Str → Option Str) (pd : Str → Option PyDateTime)
    (today : Int) (db : DB) :
    ∀ (es : List FeedEntry), (∀ e ∈ es, noParsedDate pd e) →
      ∀ st, (es.foldl (parseFeedStep lsa pd today db) st).2 = st.2 := by
  intro es
  induction es with
  | nil => intro _ st; rfl
  | cons e es ih =>
    intro h st
    rw [List.foldl_cons, ih (fun x hx => h x (List.mem_cons_of_mem e hx)),
      parseFeedStep_snd_noparse lsa pd today db st e (h e (List.mem_cons_self e es))]

theorem parse_feed_append_step (lsa : Str → Option Str) (pd : Str → Option PyDateTime)
    (today : Int) (db : DB) (es : List FeedEntry) (e : FeedEntry) :
    parse_feed lsa pd today db (es ++ [e]) =
      (parseFeedStep lsa pd today db
        (es.foldl (parseFeedStep lsa pd today db) ([], none)) e).1 := by
  unfold parse_feed
  rw [List.foldl_append]
  rfl

theorem log_failed_send_mem (db : DB) (h e : Str) :
    ∃ r ∈ (log_failed_send db h e).failed_sends,
      r.article_hash = h ∧ r.error_message = e := by
  unfold log_failed_send
  split
  · next hany =>
    rw [List.any_eq_true] at hany
    obtain ⟨r, hr, hrh⟩ := hany
    rw [decide_eq_true_eq] at hrh
    refine ⟨_, List.mem_map_of_mem _ hr, ?_⟩
    simp [hrh]
  · exact ⟨⟨h, e, 1, false⟩, by simp, rfl, rfl⟩

theorem substrB_prefix_mono {n1 n2 hay : Str} (hp : n2 <+: n1)
    (hs : substrB n1 hay = true) : substrB n2 hay = true := by
  induction hay with
  | nil =>
    simp only [substrB] at hs ⊢
    rw [List.isPrefixOf_iff_prefix] at hs ⊢
    exact hp.trans hs
  | cons c cs ih =>
    simp only [substrB, Bool.or_eq_true] at hs ⊢
    rcases hs with hs | hs
    · left
      rw [List.isPrefixOf_iff_prefix] at hs ⊢
      exact hp.trans hs
    · exact Or.inr (ih hs)

theorem isFloodMsg_of_retry12 {msg : Str} (h : substrB "Retry in 12".toList msg = true) :
    isFloodMsg msg = true := by
  have h2 : substrB "Retry in".toList msg = true :=
    substrB_prefix_mono ⟨" 12".toList, by decide⟩ h
  simp only [isFloodMsg, Bool.or_eq_true]
  exact Or.inr h2

/-- A date-parsing oracle for the concrete scenarios: calendar day 0 is
"today"; the string `D1` parses to 00:00:00 today, `D0` to 23:59:59 on the
previous day, and anything else fails to parse. -/
def pdFix : Str → Option PyDateTime := fun s =>
  if s = "D1".toList then some ⟨0, 0⟩
  else if s = "D0".toList then some ⟨-1, 86399⟩
  else none

/-- An entry published at 00:00:00 today. -/
def entryToday : FeedEntry :=
  ⟨some "T".toList, none, some "L".toList, some "D1".toList, some "g".toList, [], none⟩

/-- An entry published at 23:59:59 yesterday. -/
def entryYesterday : FeedEntry :=
  ⟨some "V".toList, none, some "N".toList, some "D0".toList, some "k".toList, [], none⟩

/-- An entry whose publish date string does not parse. -/
def entryBadDate : FeedEntry :=
  ⟨some "W".toList, none, some "O".toList, some "DX".toList, some "m".toList, [], none⟩

/-- An entry with no `published` field at all. -/
def entryNoDate : FeedEntry :=
  ⟨some "U".toList, none, some "M".toList, none, some "h".toList, [], none⟩

/-- A concrete article as the worker dequeues it. -/
def articleFix : NewsArticle :=
  ⟨"T".toList, [], "L".toList, "D1".toList, none, "g".toList, some ⟨0, 0⟩⟩

/-- A concrete worker state: empty database, the dequeued article's hash in
flight, empty queue, no acknowledgements, no sleeps yet. -/
def stateFix : WorkerState :=
  ⟨⟨[], []⟩, [articleFix.get_hash], [], 0, []⟩

/-- C1 (counterexample): the claim "parse_feed never returns two articles
with the same hash or the same normalized title within one call" is false.
A feed containing the same entry twice (same guid, same title, published
today, nothing in the store) yields two articles with identical hash and
identical normalized title: deduplication is only performed against the
persistent store, never within the call. -/
theorem parse_feed_duplicate_pair :
    (parse_feed (fun _ => none) pdFix 0 ⟨[], []⟩ [entryToday, entryToday]).map
        (fun a => (a.get_hash, a.title)) =
      [(md5_hex "g".toList, "T".toList), (md5_hex "g".toList, "T".toList)] := by
  decide

/-- C1 (amended): every article returned by one `parse_feed` call has a
hash that is not recorded in the sent store and a normalized title that is
not recorded in the sent store; duplicates arising within the same call are
not filtered. -/
theorem parse_feed_dedup_against_store (lsa : Str → Option Str)
    (pd : Str → Option PyDateTime) (today : Int) (db : DB) (entries : List FeedEntry) :
    ∀ a ∈ parse_feed lsa pd today db entries,
      is_article_sent db a.get_hash = false ∧ is_title_sent db a.title = false := by
  unfold parse_feed
  refine parse_feed_fold_mem lsa pd today db entries ([], none) ?_
  intro a ha
  exact absurd ha (List.not_mem_nil a)

/-- C1 (witness): the amended theorem applied to a one-entry feed over the
empty store. -/
theorem parse_feed_dedup_against_store_witness :
    is_article_sent ⟨[], []⟩
        (buildArticle (fun _ => none) entryToday (some ⟨0, 0⟩)).get_hash = false ∧
    is_title_sent ⟨[], []⟩
        (buildArticle (fun _ => none) entryToday (some ⟨0, 0⟩)).title = false :=
  parse_feed_dedup_against_store (fun _ => none) pdFix 0 ⟨[], []⟩ [entryToday]
    (buildArticle (fun _ => none) entryToday (some ⟨0, 0⟩)) (by decide)

/-- C3 (counterexample): the claim "the feed fetcher drops every entry
whose publish date cannot be parsed" is false for entries with a missing
(or empty) `published` field: such an entry has no parseable date, yet it
survives the date filter and produces an article. -/
theorem parse_feed_keeps_missing_date :
    entryNoDate.published = none ∧
    (parse_feed (fun _ => none) pdFix 0 ⟨[], []⟩ [entryNoDate]).length = 1 := by
  decide

/-- C3 (amended): for an entry carrying a nonempty publish-date string, the
date filter of `parse_feed` (1) drops the entry when the string fails to
parse, (2) drops it when it parses to a calendar day other than today
(an entry published at 23:59:59 yesterday is dropped), and (3) keeps it
when it parses to today (an entry published at 00:00:00 today is kept,
and, when it also passes both store checks, contributes exactly its built
article).  Entries with a missing or empty publish date are not dropped by
the date filter. -/
theorem parse_feed_date_filter (lsa : Str → Option Str)
    (pd : Str → Option PyDateTime) (today : Int) (db : DB)
    (es : List FeedEntry) (e : FeedEntry) (s : Str)
    (hs : e.published = some s) (hne : s ≠ []) :
    (pd s = none →
      parse_feed lsa pd today db (es ++ [e]) = parse_feed lsa pd today db es) ∧
    (∀ dt : PyDateTime, pd s = some dt → dt.day ≠ today →
      parse_feed lsa pd today db (es ++ [e]) = parse_feed lsa pd today db es) ∧
    (∀ dt : PyDateTime, pd s = some dt → dt.day = today →
      is_article_sent db (buildArticle lsa e (some dt)).get_hash = false →
      is_title_sent db (buildArticle lsa e (some dt)).title = false →
      parse_feed lsa pd today db (es ++ [e]) =
        parse_feed lsa pd today db es ++ [buildArticle lsa e (some dt)]) := by
  refine ⟨?_, ?_, ?_⟩
  · intro hp
    rw [parse_feed_append_step,
      parseFeedStep_drop_badparse lsa pd today db _ e s hs hne hp]
    rfl
  · intro dt hp hd
    rw [parse_feed_append_step,
      parseFeedStep_drop_wrongday lsa pd today db _ e s dt hs hne hp hd]
    rfl
  · intro dt hp hd hhash htitle
    rw [parse_feed_append_step,
      parseFeedStep_keep_sameday lsa pd today db _ e s dt hs hne hp hd,
      parseFeedKeep_app lsa db _ (some dt) e hhash htitle]
    rfl

/-- C3 (witness): the amended theorem at the boundary — the entry published
at 23:59:59 yesterday is dropped, the entry published at 00:00:00 today is
kept. -/
theorem parse_feed_date_filter_witness :
    parse_feed (fun _ => none) pdFix 0 ⟨[], []⟩ ([] ++ [entryYesterday]) =
      parse_feed (fun _ => none) pdFix 0 ⟨[], []⟩ [] ∧
    parse_feed (fun _ => none) pdFix 0 ⟨[], []⟩ ([] ++ [entryToday]) =
      parse_feed (fun _ => none) pdFix 0 ⟨[], []⟩ [] ++
        [buildArticle (fun _ => none) entryToday (some ⟨0, 0⟩)] :=
  ⟨(parse_feed_date_filter (fun _ => none) pdFix 0 ⟨[], []⟩ [] entryYesterday
      "D0".toList rfl (by decide)).2.1 ⟨-1, 86399⟩ (by decide) (by decide),
    (parse_feed_date_filter (fun _ => none) pdFix 0 ⟨[], []⟩ [] entryToday
      "D1".toList rfl (by decide)).2.2 ⟨0, 0⟩ (by decide) rfl (by decide) (by decide)⟩

/-- C10 (confirmed): within one `parse_feed` call, an entry whose
`published` field is missing or empty is not dropped by the date filter,
and the article built for it (when it passes the store checks) carries, as
its `_pub_datetime` sort key, the parsed publish datetime of the most
recent earlier entry in the same call whose date string parsed — even when
that earlier entry was itself dropped by the date filter. -/
theorem parse_feed_inherited_pub_datetime (lsa : Str → Option Str)
    (pd : Str → Option PyDateTime) (today : Int) (db : DB)
    (es1 es2 : List FeedEntry) (e0 e : FeedEntry) (s0 : Str) (d0 : PyDateTime)
    (h0 : e0.published = some s0) (hne : s0 ≠ []) (hp0 : pd s0 = some d0)
    (h2 : ∀ x ∈ es2, noParsedDate pd x)
    (he : e.published = none ∨ e.published = some [])
    (hhash : is_article_sent db (buildArticle lsa e (some d0)).get_hash = false)
    (htitle : is_title_sent db (buildArticle lsa e (some d0)).title = false) :
    parse_feed lsa pd today db (es1 ++ e0 :: (es2 ++ [e])) =
      parse_feed lsa pd today db (es1 ++ e0 :: es2) ++
        [buildArticle lsa e (some d0)] ∧
    (buildArticle lsa e (some d0)).pubDatetime = some d0 := by
  refine ⟨?_, rfl⟩
  unfold parse_feed
  rw [List.foldl_append, List.foldl_cons, List.foldl_append, List.foldl_append,
    List.foldl_cons]
  set st1 := es1.foldl (parseFeedStep lsa pd today db) ([], none) with hst1
  set st3 := es2.foldl (parseFeedStep lsa pd today db)
    (parseFeedStep lsa pd today db st1 e0) with hst3
  have hsnd : st3.2 = some d0 := by
    rw [hst3, foldl_snd_noparse lsa pd today db es2 h2,
      parseFeedStep_snd_parsed lsa pd today db st1 e0 s0 d0 h0 hne hp0]
  rw [List.foldl_cons, List.foldl_nil,
    parseFeedStep_keep_emptydate lsa pd today db st3 e he, ← hsnd]
  rw [parseFeedKeep_app lsa db st3.1 st3.2 e (by rw [hsnd]; exact hhash)
    (by rw [hsnd]; exact htitle)]

/-- C10 (witness): a feed whose first entry parses to yesterday (and is
dropped), whose second entry has an unparseable date (dropped), and whose
third entry has no `published` field: the third entry survives and inherits
the first entry's parsed datetime as its sort key. -/
theorem parse_feed_inherited_pub_datetime_witness :
    parse_feed (fun _ => none) pdFix 0 ⟨[], []⟩
        ([] ++ entryYesterday :: ([entryBadDate] ++ [entryNoDate])) =
      parse_feed (fun _ => none) pdFix 0 ⟨[], []⟩
        ([] ++ entryYesterday :: [entryBadDate]) ++
        [buildArticle (fun _ => none) entryNoDate (some ⟨-1, 86399⟩)] ∧
    (buildArticle (fun _ => none) entryNoDate (some ⟨-1, 86399⟩)).pubDatetime =
      some ⟨-1, 86399⟩ :=
  parse_feed_inherited_pub_datetime (fun _ => none) pdFix 0 ⟨[], []⟩
    [] [entryBadDate] entryYesterday entryNoDate "D0".toList ⟨-1, 86399⟩
    rfl (by decide) (by decide)
    (by
      intro x hx
      rcases List.mem_singleton.mp hx with rfl
      exact Or.inr (by decide))
    (Or.inl rfl) (by decide) (by decide)

/-- C2 (counterexample): the claim "every non-rate-limit delivery error
leads to a Failure Record" is false: a `TelegramError` that is not
classified as flood control (here "Chat not found") is only logged — the
worker leaves the failure table empty. -/
theorem worker_telegram_error_no_failure_row :
    (worker_process_item stateFix articleFix "ET".toList
        (.telegramError "Chat not found".toList)).db.failed_sends = [] ∧
    isFloodMsg "Chat not found".toList = false := by
  decide

/-- C2 (amended): when delivery raises a non-`TelegramError` exception the
worker upserts a Failure Record carrying the article's hash and the error
message and does not re-queue the item; a `TelegramError` that is not a
flood signal is only logged — no Failure Record is written and the item is
likewise not re-queued. -/
theorem worker_failure_recording (st : WorkerState) (a : NewsArticle)
    (feed msg : Str) (hnf : isFloodMsg msg = false) :
    (∃ r ∈ (worker_process_item st a feed (.otherError msg)).db.failed_sends,
        r.article_hash = a.get_hash ∧ r.error_message = msg) ∧
    (worker_process_item st a feed (.otherError msg)).task_queue = st.task_queue ∧
    (worker_process_item st a feed (.telegramError msg)).db = st.db ∧
    (worker_process_item st a feed (.telegramError msg)).task_queue = st.task_queue := by
  refine ⟨?_, rfl, ?_, ?_⟩
  · exact log_failed_send_mem st.db a.get_hash msg
  · simp [worker_process_item, handleOutcome, finallyRelease, hnf]
  · simp [worker_process_item, handleOutcome, finallyRelease, hnf]

/-- C2 (witness): the amended theorem at a concrete state and error. -/
theorem worker_failure_recording_witness :
    (∃ r ∈ (worker_process_item stateFix articleFix "ET".toList
        (.otherError "boom".toList)).db.failed_sends,
      r.article_hash = articleFix.get_hash ∧ r.error_message = "boom".toList) ∧
    (worker_process_item stateFix articleFix "ET".toList
        (.otherError "boom".toList)).task_queue = stateFix.task_queue ∧
    (worker_process_item stateFix articleFix "ET".toList
        (.telegramError "boom".toList)).db = stateFix.db ∧
    (worker_process_item stateFix articleFix "ET".toList
        (.telegramError "boom".toList)).task_queue = stateFix.task_queue :=
  worker_failure_recording stateFix articleFix "ET".toList "boom".toList (by decide)

/-- C8 (counterexample): the claim "a flood-control error whose message
contains `Retry in 12` makes the worker sleep at least 13 seconds" is
false: the code sleeps one plus the FIRST integer of the message, so the
message "Error 5: Retry in 12" — which contains "Retry in 12" — produces a
6-second sleep. -/
theorem flood_wait_first_number :
    substrB "Retry in 12".toList "Error 5: Retry in 12".toList = true ∧
    (worker_process_item stateFix articleFix "ET".toList
        (.telegramError "Error 5: Retry in 12".toList)).sleeps = [6] ∧
    6 < 13 := by
  decide

/-- C8 (amended): on a `TelegramError` whose message contains
"Retry in 12" and whose first integer is 12 (as in the standard flood
message), the worker sleeps exactly 13 seconds — one plus the parsed
number — and the item is dropped: it is not re-queued and no Sent Record
is created for it. -/
theorem flood_drop_semantics (st : WorkerState) (a : NewsArticle)
    (feed msg : Str)
    (hsub : substrB "Retry in 12".toList msg = true)
    (hfn : firstNumber msg = some 12) :
    (worker_process_item st a feed (.telegramError msg)).sleeps =
      st.sleeps ++ [13] ∧
    (worker_process_item st a feed (.telegramError msg)).task_queue =
      st.task_queue ∧
    (worker_process_item st a feed (.telegramError msg)).db.sent_articles =
      st.db.sent_articles := by
  have hf : isFloodMsg msg = true := isFloodMsg_of_retry12 hsub
  simp [worker_process_item, handleOutcome, finallyRelease, hf, floodWait, hfn]

/-- C8 (witness): the amended theorem on the standard flood-control
message. -/
theorem flood_drop_semantics_witness :
    (worker_process_item stateFix articleFix "ET".toList
        (.telegramError "Flood control exceeded. Retry in 12 seconds".toList)).sleeps =
      stateFix.sleeps ++ [13] ∧
    (worker_process_item stateFix articleFix "ET".toList
        (.telegramError "Flood control exceeded. Retry in 12 seconds".toList)).task_queue =
      stateFix.task_queue ∧
    (worker_process_item stateFix articleFix "ET".toList
        (.telegramError "Flood control exceeded. Retry in 12 seconds".toList)).db.sent_articles =
      stateFix.db.sent_articles :=
  flood_drop_semantics stateFix articleFix "ET".toList
    "Flood control exceeded. Retry in 12 seconds".toList (by decide) (by decide)

/-- C9 (confirmed): whatever the outcome of processing a dequeued item —
success, a flood drop, a logged Telegram error, or any other exception —
the `finally` block removes the article's hash from the in-flight set and
acknowledges queue completion exactly once. -/
theorem worker_always_releases (st : WorkerState) (a : NewsArticle)
    (feed : Str) (out : SendOutcome) :
    a.get_hash ∉ (worker_process_item st a feed out).processing_hashes ∧
    (worker_process_item st a feed out).acks = st.acks + 1 := by
  have hfin : ∀ s : WorkerState,
      a.get_hash ∉ (finallyRelease s a).processing_hashes ∧
      (finallyRelease s a).acks = s.acks + 1 := by
    intro s
    constructor
    · simp [finallyRelease, List.mem_filter]
    · rfl
  have hho : (handleOutcome st a feed out).acks = st.acks := by
    cases out with
    | success => rfl
    | telegramError msg =>
      by_cases hf : isFloodMsg msg = true
      · simp [handleOutcome, hf]
      · simp [handleOutcome, hf]
    | otherError msg => rfl
  constructor
  · exact (hfin (handleOutcome st a feed out)).1
  · show (finallyRelease (handleOutcome st a feed out) a).acks = st.acks + 1
    rw [(hfin (handleOutcome st a feed out)).2, hho]

/-- C4 (confirmed): starting from a store with no Failure Record for hash
`h`, calling `log_failed_send` with `h` and `e1` and then with `h` and
`e2` leaves exactly one Failure Record for `h`, with retry count 2 and the
latest error message `e2`. -/
theorem record_failure_upsert (db : DB) (h e1 e2 : Str)
    (hno : ∀ r ∈ db.failed_sends, ¬(r.article_hash = h)) :
    (log_failed_send (log_failed_send db h e1) h e2).failed_sends.filter
        (fun r => r.article_hash = h) = [⟨h, e2, 2, false⟩] := by
  have hany1 : db.failed_sends.any (fun r => decide (r.article_hash = h)) = false := by
    rw [List.any_eq_false]
    intro r hr
    simpa using hno r hr
  have h1 : log_failed_send db h e1 =
      { db with failed_sends := db.failed_sends ++ [⟨h, e1, 1, false⟩] } := by
    unfold log_failed_send
    rw [if_neg (by simp [hany1])]
  rw [h1]
  have hany2 : (db.failed_sends ++ [(⟨h, e1, 1, false⟩ : FailedRecord)]).any
      (fun r => decide (r.article_hash = h)) = true := by
    rw [List.any_eq_true]
    exact ⟨⟨h, e1, 1, false⟩, by simp, by simp⟩
  unfold log_failed_send
  rw [if_pos hany2]
  simp only [List.map_append, List.filter_append]
  have hmapl : db.failed_sends.map (fun r : FailedRecord =>
      if r.article_hash = h then
        { r with retry_count := r.retry_count + 1, error_message := e2 }
      else r) = db.failed_sends := by
    rw [List.map_congr_left (g := fun r => r) (fun r hr => if_neg (hno r hr)),
      List.map_id']
  rw [hmapl]
  have hnil : db.failed_sends.filter (fun r => r.article_hash = h) = [] := by
    rw [List.filter_eq_nil_iff]
    intro r hr
    simpa using hno r hr
  rw [hnil]
  simp

/-- C4 (witness): the upsert property on the empty store. -/
theorem record_failure_upsert_witness :
    (log_failed_send (log_failed_send ⟨[], []⟩ "h1".toList "e1".toList)
        "h1".toList "e2".toList).failed_sends.filter
      (fun r => r.article_hash = "h1".toList) =
      [⟨"h1".toList, "e2".toList, 2, false⟩] :=
  record_failure_upsert ⟨[], []⟩ "h1".toList "e1".toList "e2".toList
    (by intro r hr; exact absurd hr (List.not_mem_nil r))

/-- C5 (confirmed): `mark_article_sent` is idempotent and swallows the
duplicate-key error: under the table invariant (at most one Sent Record
per hash), a second call with the same article changes nothing, and
exactly one Sent Record with the article's hash remains. -/
theorem record_sent_idempotent (db : DB) (a : NewsArticle) (m1 f1 m2 f2 : Str)
    (hinv : (db.sent_articles.filter
      (fun r => r.article_hash = a.get_hash)).length ≤ 1) :
    mark_article_sent (mark_article_sent db a m1 f1) a m2 f2 =
      mark_article_sent db a m1 f1 ∧
    ((mark_article_sent (mark_article_sent db a m1 f1) a m2 f2).sent_articles.filter
        (fun r => r.article_hash = a.get_hash)).length = 1 := by
  by_cases hany : db.sent_articles.any
      (fun r => decide (r.article_hash = a.get_hash)) = true
  · have hdb : mark_article_sent db a m1 f1 = db := by
      unfold mark_article_sent
      rw [if_pos (by simpa using hany)]
    have hdb2 : mark_article_sent db a m2 f2 = db := by
      unfold mark_article_sent
      rw [if_pos (by simpa using hany)]
    refine ⟨by rw [hdb, hdb2], ?_⟩
    rw [hdb, hdb2]
    have hpos : 1 ≤ (db.sent_articles.filter
        (fun r => r.article_hash = a.get_hash)).length := by
      rw [List.any_eq_true] at hany
      obtain ⟨r, hr, hrh⟩ := hany
      have : r ∈ db.sent_articles.filter (fun r => r.article_hash = a.get_hash) :=
        List.mem_filter.mpr ⟨hr, hrh⟩
      exact List.length_pos.mpr (List.ne_nil_of_mem this)
    omega
  · have hfst : mark_article_sent db a m1 f1 =
        { db with sent_articles := db.sent_articles ++
          [⟨a.get_hash, a.guid, a.title, a.link, m1, f1⟩] } := by
      unfold mark_article_sent
      rw [if_neg hany]
    have hany2 : (db.sent_articles ++
        [(⟨a.get_hash, a.guid, a.title, a.link, m1, f1⟩ : SentRecord)]).any
        (fun r => decide (r.article_hash = a.get_hash)) = true := by
      rw [List.any_eq_true]
      exact ⟨⟨a.get_hash, a.guid, a.title, a.link, m1, f1⟩, by simp, by simp⟩
    have hsnd : mark_article_sent (mark_article_sent db a m1 f1) a m2 f2 =
        mark_article_sent db a m1 f1 := by
      rw [hfst]
      unfold mark_article_sent
      rw [if_pos hany2]
    refine ⟨hsnd, ?_⟩
    rw [hsnd, hfst]
    have hnil : db.sent_articles.filter
        (fun r => r.article_hash = a.get_hash) = [] := by
      rw [List.filter_eq_nil_iff]
      intro r hr
      rw [Bool.not_eq_true, List.any_eq_false] at hany
      exact hany r hr
    simp [List.filter_append, hnil]

/-- C5 (witness): marking the same article sent twice on the empty store
leaves exactly one Sent Record. -/
theorem record_sent_idempotent_witness :
    mark_article_sent (mark_article_sent ⟨[], []⟩ articleFix "m1".toList "ET".toList)
        articleFix "m2".toList "ET".toList =
      mark_article_sent ⟨[], []⟩ articleFix "m1".toList "ET".toList ∧
    ((mark_article_sent (mark_article_sent ⟨[], []⟩ articleFix "m1".toList "ET".toList)
        articleFix "m2".toList "ET".toList).sent_articles.filter
      (fun r => r.article_hash = articleFix.get_hash)).length = 1 :=
  record_sent_idempotent ⟨[], []⟩ articleFix "m1".toList "ET".toList
    "m2".toList "ET".toList (by decide)

/-- C6 (code bug): the normalization function the pipeline calls —
`normalize_currency_symbols` in news_telegram_bot.py, whose dictionary
keys are mojibake and which lacks the rs word-boundary rule — leaves
"₹500 crore" and "Rs. 500" unchanged, against the spec; the parallel
`normalize_currency_symbols` in text_utils.py (not imported by the
pipeline) realizes exactly the specified mapping, showing the intent. -/
theorem normalize_currency_mojibake_eval :
    normalize_currency_symbols "₹500 crore".toList = "₹500 crore".toList ∧
    normalize_currency_symbols "Rs. 500".toList = "Rs. 500".toList ∧
    normalize_currency_symbols "worst case".toList = "worst case".toList ∧
    tu_normalize_currency_symbols "₹500 crore".toList = "INR 500 crore".toList ∧
    tu_normalize_currency_symbols "Rs. 500".toList = "INR 500".toList ∧
    tu_normalize_currency_symbols "worst case".toList = "worst case".toList := by
  decide

/-- C7 (counterexample): the claim "`summarize_text` returns output no
longer than its input, and returns short input unchanged" is false on both
counts: a short input with a doubled space comes back cleaned (not
unchanged), and a 351-character input with no spaces or dots, summarized
with a 350-character budget when the LSA library fails, comes back as a
353-character truncation with an appended ellipsis — longer than the
input. -/
theorem summarize_text_counterexample :
    (summarize_text (fun _ => none) "a  b".toList 350 = "a b".toList ∧
      "a b".toList ≠ "a  b".toList) ∧
    ((summarize_text (fun _ => none) (List.replicate 351 'a') 350).length = 353 ∧
      (List.replicate 351 'a' : Str).length = 351 ∧ 351 < 353) := by
  decide

/-- C7 (amended): whenever the cleaned input (HTML stripped, whitespace
collapsed, ends stripped) fits the character budget, `summarize_text`
returns exactly that cleaned input — not the raw input — and cleaning
never lengthens, so on this path the output is no longer than the input.
In the truncation fallback the output may exceed the input length by up to
three characters (the appended ellipsis). -/
theorem summarize_text_short_input (lsa : Str → Option Str) (text : Str)
    (maxChars : Nat) (h : (clean_text text).length ≤ maxChars) :
    summarize_text lsa text maxChars = clean_text text ∧
    (clean_text text).length ≤ text.length := by
  constructor
  · unfold summarize_text
    rw [if_pos h]
  · exact clean_text_length text

/-- C7 (witness): the amended theorem on a short input with collapsible
whitespace. -/
theorem summarize_text_short_input_witness :
    summarize_text (fun _ => none) "a  b".toList 350 = clean_text "a  b".toList ∧
    (clean_text "a  b".toList).length ≤ ("a  b".toList : Str).length :=
  summarize_text_short_input (fun _ => none) "a  b".toList 350 (by decide)
